import Mathlib

/-!
Verification of the replica administration commands (`replica restart`,
`replica restore`) of the ch-tools repository, embedded shallowly:
the command bodies from `ch_tools/chadmin/cli/replica_group.py` are
translated into pure Lean functions over an explicit catalog of replica
records and an environment function giving the outcome of each remote
mutating call.  The collaborators that live outside the provided sources
(the catalog reader `list_table_replicas`, the mutating client
`restart_table_replica` / `restore_table_replica` and its dry-run gate,
and the pattern matcher used for selection) are modelled from the spec,
as marked on each definition.
-/

namespace ChTools

/-! ### String containment (Python's `in` operator on strings) -/

/-- Bool test that `n` is an initial segment of `l`. -/
def isPrefixL : List Char → List Char → Bool
  | [], _ => true
  | _ :: _, [] => false
  | a :: as, b :: bs => a == b && isPrefixL as bs

/-- Bool test that `n` occurs contiguously inside `l`. -/
def isSubL (n : List Char) : List Char → Bool
  | [] => isPrefixL n []
  | c :: s => isPrefixL n (c :: s) || isSubL n (s)

/-- Python's `needle in s` for strings: case-sensitive substring search. -/
def containsSub (s needle : String) : Bool :=
  isSubL needle.data s.data

/-! ### SQL LIKE glob matching

Modelled from the spec: the pattern matcher applied by the catalog reader
to a pattern without a comma is SQL-LIKE style matching, `%` matching any
sequence of characters and `_` matching exactly one character,
case-sensitive.  The code realising it (inside
`ch_tools.chadmin.internal.table_replica`) is not among the provided
sources. -/
def likeStep (p : Char) (next : List Char → Bool) : List Char → Bool
  | [] => false
  | c :: s' => (if p = '_' then true else p == c) && next s'

def likeMatch : List Char → List Char → Bool
  | [], s => s.isEmpty
  | p :: ps, s =>
    if p = '%' then
      s.tails.any fun t => likeMatch ps t
    else
      likeStep p (fun t => likeMatch ps t) s

theorem likeMatch_nil_pat (s : List Char) : likeMatch [] s = s.isEmpty := by
  rw [likeMatch.eq_def]

theorem likeMatch_cons_pat (p : Char) (ps s : List Char) :
    likeMatch (p :: ps) s =
      if p = '%' then s.tails.any (fun t => likeMatch ps t)
      else likeStep p (fun t => likeMatch ps t) s := by
  rw [likeMatch.eq_def]

/-- Declarative semantics of SQL-LIKE patterns: `%` matches any sequence
(including the empty one), `_` matches exactly one character, and any
other pattern character matches only itself. -/
inductive LikeSem : List Char → List Char → Prop
  | done : LikeSem [] []
  | anySeq {ps : List Char} (s1 : List Char) {s2 : List Char} :
      LikeSem ps s2 → LikeSem ('%' :: ps) (s1 ++ s2)
  | anyChar {ps : List Char} (c : Char) {s : List Char} :
      LikeSem ps s → LikeSem ('_' :: ps) (c :: s)
  | lit {ps : List Char} {c : Char} {s : List Char} :
      c ≠ '%' → c ≠ '_' → LikeSem ps s → LikeSem (c :: ps) (c :: s)

theorem likeMatch_of_likeSem {p s : List Char} (h : LikeSem p s) :
    likeMatch p s = true := by
  induction h with
  | done => rfl
  | anySeq s1 h ih =>
    rw [likeMatch_cons_pat, if_pos rfl, List.any_eq_true]
    exact ⟨_, (List.mem_tails _ _).2 (List.suffix_append s1 _), ih⟩
  | anyChar c h ih =>
    rw [likeMatch_cons_pat]
    simp [likeStep, ih]
  | lit hp hu h ih =>
    rw [likeMatch_cons_pat, if_neg hp]
    simp [likeStep, hu, ih]

theorem likeSem_of_likeMatch : ∀ (p : List Char) (s : List Char),
    likeMatch p s = true → LikeSem p s := by
  intro p
  induction p with
  | nil =>
    intro s h
    rw [likeMatch_nil_pat, List.isEmpty_iff] at h
    subst h
    exact LikeSem.done
  | cons a ps ih =>
    intro s h
    rw [likeMatch_cons_pat] at h
    by_cases hp : a = '%'
    · subst hp
      rw [if_pos rfl, List.any_eq_true] at h
      obtain ⟨t, ht, hm⟩ := h
      rw [List.mem_tails] at ht
      obtain ⟨s1, rfl⟩ := ht
      exact LikeSem.anySeq s1 (ih t hm)
    · rw [if_neg hp] at h
      cases s with
      | nil => simp [likeStep] at h
      | cons c s' =>
        rw [likeStep] at h
        by_cases hu : a = '_'
        · subst hu
          rw [if_pos rfl, Bool.true_and] at h
          exact LikeSem.anyChar c (ih s' h)
        · rw [if_neg hu, Bool.and_eq_true, beq_iff_eq] at h
          obtain ⟨rfl, h⟩ := h
          exact LikeSem.lit hp hu (ih s' h)

theorem likeMatch_iff_likeSem (p s : List Char) :
    likeMatch p s = true ↔ LikeSem p s :=
  ⟨likeSem_of_likeMatch p s, likeMatch_of_likeSem⟩

/-! ### Data model -/

/-- The ReplicaRecord of the data model: one row of the replica catalog
(`system.replicas`), as listed in the spec's data model. -/
structure Replica where
  database : String
  table : String
  zookeeper_path : String
  replica_name : String
  is_readonly : Bool
  absolute_delay : Nat
  queue_size : Nat
  active_replicas : Nat
  total_replicas : Nat
deriving Repr, DecidableEq

/-- The selection options shared by the `restart` and `restore` commands
(`--database`, `--exclude-database`, `--table`, `--exclude-table`). -/
structure SelectionFlags where
  database_pattern : Option String := none
  exclude_database_pattern : Option String := none
  table_pattern : Option String := none
  exclude_table_pattern : Option String := none
deriving Repr, DecidableEq

/-- The keyword arguments accepted by the catalog reader
`list_table_replicas`. -/
structure ListParams where
  all : Bool := false
  database_pattern : Option String := none
  exclude_database_pattern : Option String := none
  table_pattern : Option String := none
  exclude_table_pattern : Option String := none
  is_readonly : Bool := false
  limit : Option Nat := none
deriving Repr, DecidableEq

/-! ### Selector

Modelled from the spec: the Selector's matching contract, honored by the
catalog reader when it builds its remote query.  The code realising it
(`ch_tools.chadmin.internal.table_replica.list_table_replicas` and its
query templating) is not among the provided sources. -/

/-- Modelled from the spec: `matchOne` — if the pattern contains a comma,
split on comma, trim whitespace from each element and test exact
membership of the trimmed candidate; otherwise apply SQL-LIKE glob
matching. -/
def matchOne (v p : String) : Bool :=
  if p.data.contains ',' then
    ((p.split fun c => c == ',').map String.trim).contains v.trim
  else
    likeMatch p.data v.data

/-- Modelled from the spec: one selection dimension — an absent include
pattern matches everything, an absent exclude pattern matches nothing. -/
def matchDim (v : String) (incl excl : Option String) : Bool :=
  (match incl with
   | none => true
   | some p => matchOne v p) &&
  !(match excl with
    | none => false
    | some p => matchOne v p)

/-- Modelled from the spec: the pattern part of the selection predicate.
The `--all` flag ("Filter in all replicas") is modelled as bypassing the
pattern dimensions; the database and table dimensions combine with AND. -/
def patternMatches (ps : ListParams) (r : Replica) : Bool :=
  ps.all ||
    (matchDim r.database ps.database_pattern ps.exclude_database_pattern &&
     matchDim r.table ps.table_pattern ps.exclude_table_pattern)

/-- Modelled from the spec: the full selection predicate; the
`is_readonly` flag, when set, additionally requires the replica to be in
read-only state. -/
def selects (ps : ListParams) (r : Replica) : Bool :=
  patternMatches ps r && (!ps.is_readonly || r.is_readonly)

/-- Modelled from the spec: the Replica Catalog Reader
`list_table_replicas` — returns the catalog rows matching the selection
predicate, in catalog order, honoring the row limit when one is given. -/
def list_table_replicas (catalog : List Replica) (ps : ListParams) :
    List Replica :=
  match ps.limit with
  | none => catalog.filter (selects ps)
  | some n => (catalog.filter (selects ps)).take n

/-! ### Mutating Action Client and Dry-Run Gate

Modelled from the spec: `restart_table_replica` and
`restore_table_replica` (module `ch_tools.chadmin.internal.table_replica`,
not among the provided sources) each issue one remote DDL call carrying
the replica identity and the optional cluster annotation; on failure the
remote engine's raw message text is raised as a `ClickhouseError`.  The
dry-run gate intercepts the call before it reaches the remote engine,
records the intended action and returns a synthetic success. -/

/-- The two mutating operations. -/
inductive Op
  | restart
  | restore
deriving Repr, DecidableEq

/-- One mutating call: operation, replica identity, cluster annotation. -/
structure Call where
  op : Op
  database : String
  table : String
  cluster : Option String
deriving Repr, DecidableEq

/-- Outcome of a remote call: success, or a `ClickhouseError` carrying
the raw response text. -/
inductive Outcome
  | ok
  | fail (msg : String)
deriving Repr, DecidableEq

/-- Observable execution state: the calls that reached the remote
engine, the intended-action records written by the dry-run gate, and the
index of the next remote response. -/
structure ExecState where
  engineCalls : List Call
  records : List Call
  idx : Nat
deriving Repr, DecidableEq

def initState : ExecState := ⟨[], [], 0⟩

/-- Modelled from the spec: one call through the Mutating Action Client.
The remote engine is modelled as the environment `env`, giving the
outcome of the n-th call that reaches it.  With `dryRun` set the call is
intercepted: it is recorded and a synthetic success is returned without
contacting the engine. -/
def doCall (env : Nat → Outcome) (dryRun : Bool) (c : Call) (s : ExecState) :
    ExecState × Outcome :=
  if dryRun then
    ({ s with records := s.records ++ [c] }, Outcome.ok)
  else
    ({ s with engineCalls := s.engineCalls ++ [c], idx := s.idx + 1 },
     env s.idx)

def restoreCall (r : Replica) (cluster : Option String) : Call :=
  ⟨Op.restore, r.database, r.table, cluster⟩

def restartCall (r : Replica) (cluster : Option String) : Call :=
  ⟨Op.restart, r.database, r.table, cluster⟩

/-! ### The restore flow (`restore_command`, replica_group.py lines 225-274) -/

/-- The needles of failure class RecoverableA. -/
def needleA1 : String := "Replica has metadata in ZooKeeper"

def needleA2 : String := "NO_ZOOKEEPER"

/-- The needle of failure class RecoverableB. -/
def needleB : String := "Replica path is present"

/-- One iteration of the restore loop, translated from the `try/except`
body of `restore_command`: attempt `restore`; on a `ClickhouseError`
classify the message by substring search; class RecoverableA runs
`restart` then one more `restore`, class RecoverableB runs `restart`
only, an unclassified failure is re-raised.  The second component is
`some msg` when an exception propagates out of the iteration. -/
def restore_one (env : Nat → Outcome) (dryRun : Bool)
    (cluster : Option String) (r : Replica) (s : ExecState) :
    ExecState × Option String :=
  match doCall env dryRun (restoreCall r cluster) s with
  | (s1, Outcome.ok) => (s1, none)
  | (s1, Outcome.fail msg) =>
    if containsSub msg needleA1 || containsSub msg needleA2 then
      match doCall env dryRun (restartCall r cluster) s1 with
      | (s2, Outcome.fail m2) => (s2, some m2)
      | (s2, Outcome.ok) =>
        match doCall env dryRun (restoreCall r cluster) s2 with
        | (s3, Outcome.fail m3) => (s3, some m3)
        | (s3, Outcome.ok) => (s3, none)
    else if containsSub msg needleB then
      match doCall env dryRun (restartCall r cluster) s1 with
      | (s2, Outcome.fail m2) => (s2, some m2)
      | (s2, Outcome.ok) => (s2, none)
    else
      (s1, some msg)

/-- The `for replica in ro_replicas` loop of `restore_command`: process
the replicas in order; an exception propagating out of an iteration
aborts the loop. -/
def restore_loop (env : Nat → Outcome) (dryRun : Bool)
    (cluster : Option String) : List Replica → ExecState →
    ExecState × Option String
  | [], s => (s, none)
  | r :: rs, s =>
    match restore_one env dryRun cluster r s with
    | (s1, none) => restore_loop env dryRun cluster rs s1
    | (s1, some m) => (s1, some m)

/-- The `ListParams` built by `restore_command`: the selection flags are
forwarded, `is_readonly=True` is forced, and the bound `_all` flag is
not forwarded (so `all` keeps its default). -/
def restoreParams (flags : SelectionFlags) : ListParams :=
  { database_pattern := flags.database_pattern,
    exclude_database_pattern := flags.exclude_database_pattern,
    table_pattern := flags.table_pattern,
    exclude_table_pattern := flags.exclude_table_pattern,
    is_readonly := true }

/-- `restore_command` (replica_group.py lines 225-274): compute the
cluster annotation, list the read-only replicas matching the selection,
and run the restore loop over them.  `_all` is bound by the command
signature but not forwarded to the catalog read. -/
def restore_command (clusterName : String) (catalog : List Replica)
    (env : Nat → Outcome) ( _all : Bool) (onCluster : Bool) (dryRun : Bool)
    (flags : SelectionFlags) : ExecState × Option String :=
  let cluster := if onCluster then some clusterName else none
  let ro_replicas := list_table_replicas catalog (restoreParams flags)
  restore_loop env dryRun cluster ro_replicas initState

/-! ### The restart flow (`restart_replica_command`, replica_group.py lines 157-170) -/

/-- The `for replica in ...` loop of `restart_replica_command`: one
`restart` per replica, no `try/except` around it — a failure propagates
immediately and aborts the loop. -/
def restart_loop (env : Nat → Outcome) (dryRun : Bool)
    (cluster : Option String) : List Replica → ExecState →
    ExecState × Option String
  | [], s => (s, none)
  | r :: rs, s =>
    match doCall env dryRun (restartCall r cluster) s with
    | (s1, Outcome.ok) => restart_loop env dryRun cluster rs s1
    | (s1, Outcome.fail m) => (s1, some m)

/-- The `ListParams` built by `restart_replica_command`: all selection
kwargs, including `_all`, are forwarded; no read-only filter is
applied. -/
def restartParams ( _all : Bool) (flags : SelectionFlags) : ListParams :=
  { all := _all,
    database_pattern := flags.database_pattern,
    exclude_database_pattern := flags.exclude_database_pattern,
    table_pattern := flags.table_pattern,
    exclude_table_pattern := flags.exclude_table_pattern }

/-- `restart_replica_command` (replica_group.py lines 157-170). -/
def restart_replica_command (clusterName : String) (catalog : List Replica)
    (env : Nat → Outcome) ( _all : Bool) (onCluster : Bool) (dryRun : Bool)
    (flags : SelectionFlags) : ExecState × Option String :=
  let cluster := if onCluster then some clusterName else none
  restart_loop env dryRun cluster
    (list_table_replicas catalog (restartParams _all flags)) initState

/-! ### Characterization of one restore iteration (dry run off) -/

theorem restore_one_ok_spec (env : Nat → Outcome) (cluster : Option String)
    (r : Replica) (s : ExecState) (h : env s.idx = Outcome.ok) :
    restore_one env false cluster r s =
      ({ s with
          engineCalls := s.engineCalls ++ [restoreCall r cluster],
          idx := s.idx + 1 }, none) := by
  simp [restore_one, doCall, h]

theorem restore_one_classA_spec (env : Nat → Outcome)
    (cluster : Option String) (r : Replica) (s : ExecState) (msg : String)
    (h0 : env s.idx = Outcome.fail msg)
    (hA : (containsSub msg needleA1 || containsSub msg needleA2) = true)
    (h1 : env (s.idx + 1) = Outcome.ok) :
    restore_one env false cluster r s =
      ({ s with
          engineCalls := s.engineCalls ++
            [restoreCall r cluster, restartCall r cluster, restoreCall r cluster],
          idx := s.idx + 3 },
       match env (s.idx + 2) with
       | Outcome.ok => none
       | Outcome.fail m => some m) := by
  have h2 : s.idx + 1 + 1 = s.idx + 2 := rfl
  cases ho : env (s.idx + 2) with
  | ok => simp [restore_one, doCall, h0, hA, h1, h2, ho, List.append_assoc]
  | fail m => simp [restore_one, doCall, h0, hA, h1, h2, ho, List.append_assoc]

theorem restore_one_classA_restart_fail_spec (env : Nat → Outcome)
    (cluster : Option String) (r : Replica) (s : ExecState) (msg m2 : String)
    (h0 : env s.idx = Outcome.fail msg)
    (hA : (containsSub msg needleA1 || containsSub msg needleA2) = true)
    (h1 : env (s.idx + 1) = Outcome.fail m2) :
    restore_one env false cluster r s =
      ({ s with
          engineCalls := s.engineCalls ++
            [restoreCall r cluster, restartCall r cluster],
          idx := s.idx + 2 }, some m2) := by
  simp [restore_one, doCall, h0, hA, h1, List.append_assoc]

theorem restore_one_classB_spec (env : Nat → Outcome)
    (cluster : Option String) (r : Replica) (s : ExecState) (msg : String)
    (h0 : env s.idx = Outcome.fail msg)
    (hA : (containsSub msg needleA1 || containsSub msg needleA2) = false)
    (hB : containsSub msg needleB = true) :
    restore_one env false cluster r s =
      ({ s with
          engineCalls := s.engineCalls ++
            [restoreCall r cluster, restartCall r cluster],
          idx := s.idx + 2 },
       match env (s.idx + 1) with
       | Outcome.ok => none
       | Outcome.fail m => some m) := by
  cases ho : env (s.idx + 1) with
  | ok => simp [restore_one, doCall, h0, hA, hB, ho, List.append_assoc]
  | fail m => simp [restore_one, doCall, h0, hA, hB, ho, List.append_assoc]

theorem restore_one_unclassified_spec (env : Nat → Outcome)
    (cluster : Option String) (r : Replica) (s : ExecState) (msg : String)
    (h0 : env s.idx = Outcome.fail msg)
    (hA : (containsSub msg needleA1 || containsSub msg needleA2) = false)
    (hB : containsSub msg needleB = false) :
    restore_one env false cluster r s =
      ({ s with
          engineCalls := s.engineCalls ++ [restoreCall r cluster],
          idx := s.idx + 1 }, some msg) := by
  simp [restore_one, doCall, h0, hA, hB]

theorem restore_loop_cons_ok (env : Nat → Outcome) (dryRun : Bool)
    (cluster : Option String) (r : Replica) (rs : List Replica)
    (s s' : ExecState) (h : restore_one env dryRun cluster r s = (s', none)) :
    restore_loop env dryRun cluster (r :: rs) s =
      restore_loop env dryRun cluster rs s' := by
  simp [restore_loop, h]

theorem restore_loop_cons_fail (env : Nat → Outcome) (dryRun : Bool)
    (cluster : Option String) (r : Replica) (rs : List Replica)
    (s s' : ExecState) (m : String)
    (h : restore_one env dryRun cluster r s = (s', some m)) :
    restore_loop env dryRun cluster (r :: rs) s = (s', some m) := by
  simp [restore_loop, h]

/-! ### `containsSub` really is substring search -/

theorem isPrefixL_iff (n : List Char) : ∀ l : List Char,
    isPrefixL n l = true ↔ n <+: l := by
  induction n with
  | nil => intro l; simp [isPrefixL, List.nil_prefix]
  | cons a as ih =>
    intro l
    cases l with
    | nil => simp [isPrefixL]
    | cons b bs =>
      simp [isPrefixL, List.cons_prefix_cons, ih bs, And.comm]

theorem isSubL_iff (n : List Char) : ∀ l : List Char,
    isSubL n l = true ↔ n <:+: l := by
  intro l
  induction l with
  | nil => simp [isSubL, isPrefixL_iff]
  | cons c s ih =>
    rw [isSubL, Bool.or_eq_true, isPrefixL_iff, ih, List.infix_cons_iff]

theorem containsSub_iff (s needle : String) :
    containsSub s needle = true ↔ needle.data <:+: s.data := by
  rw [containsSub, isSubL_iff]

/-! ### Concrete scenario inputs -/

/-- A concrete read-only replica. -/
def exReplica : Replica :=
  ⟨"shard1", "events", "/tables/shard1/events", "replica1", true, 0, 0, 1, 2⟩

/-- A second concrete read-only replica. -/
def exReplica2 : Replica :=
  ⟨"shard1", "logs", "/tables/shard1/logs", "replica1", true, 0, 0, 1, 2⟩

/-- Engine: the first call fails with a RecoverableA message, every
later call succeeds. -/
def envA : Nat → Outcome := fun n =>
  if n = 0 then Outcome.fail "NO_ZOOKEEPER" else Outcome.ok

/-- Engine: the first call fails with a RecoverableA message, the
restart succeeds, the remediation restore fails. -/
def envAbad : Nat → Outcome := fun n =>
  if n = 0 then Outcome.fail "NO_ZOOKEEPER"
  else if n = 1 then Outcome.ok
  else Outcome.fail "boom"

/-- Engine: the first call fails with the RecoverableB message, the
remediation restart fails. -/
def envBbad : Nat → Outcome := fun n =>
  if n = 0 then Outcome.fail "Replica path is present"
  else Outcome.fail "boom2"

/-- Engine: the first call fails with the RecoverableB message, every
later call succeeds. -/
def envB : Nat → Outcome := fun n =>
  if n = 0 then Outcome.fail "Replica path is present" else Outcome.ok

/-- Engine: every call fails with an unclassifiable message. -/
def envU : Nat → Outcome := fun _ => Outcome.fail "some other error"

/-! ### C1 -/

/-- C1 counterexample: one selected read-only replica; its restore fails
with "NO_ZOOKEEPER" (class RecoverableA) and every subsequent call
succeeds.  The run issues exactly three engine calls — restore, restart,
restore — not the four calls (restore, then restart followed by two
restores) that the claimed remediation would produce. -/
theorem restore_recoverableA_three_calls_not_four :
    (restore_command "c1" [exReplica] envA false false false
        {}).1.engineCalls =
      [restoreCall exReplica none, restartCall exReplica none,
       restoreCall exReplica none] ∧
    [restoreCall exReplica none, restartCall exReplica none,
     restoreCall exReplica none] ≠
      [restoreCall exReplica none, restartCall exReplica none,
       restoreCall exReplica none, restoreCall exReplica none] :=
  ⟨by decide, by decide⟩

/-- C1 (amended): for every replica whose restore attempt fails with an
error message containing "Replica has metadata in ZooKeeper" or
"NO_ZOOKEEPER" (class RecoverableA) and whose remediation restart
succeeds, the remediation issued is exactly restart(database, table,
cluster) followed by ONE restore(database, table, cluster) call — so the
engine receives three calls for the replica, in the order restore,
restart, restore — and the final restore is issued regardless of what
the engine answers to it. -/
theorem restore_recoverableA_remediation (env : Nat → Outcome)
    (cluster : Option String) (r : Replica) (s : ExecState) (msg : String)
    (h0 : env s.idx = Outcome.fail msg)
    (hA : (containsSub msg needleA1 || containsSub msg needleA2) = true)
    (h1 : env (s.idx + 1) = Outcome.ok) :
    (restore_one env false cluster r s).1.engineCalls =
      s.engineCalls ++
        [restoreCall r cluster, restartCall r cluster,
         restoreCall r cluster] := by
  rw [restore_one_classA_spec env cluster r s msg h0 hA h1]

theorem restore_recoverableA_remediation_witness :
    (restore_one envA false none exReplica initState).1.engineCalls =
      [restoreCall exReplica none, restartCall exReplica none,
       restoreCall exReplica none] :=
  restore_recoverableA_remediation envA none exReplica initState
    "NO_ZOOKEEPER" rfl (by decide) rfl

/-! ### C2 -/

/-- C2 counterexample: two read-only replicas are selected; the first
replica's restore fails with "NO_ZOOKEEPER" (RecoverableA), its
remediation restart succeeds and its remediation restore fails with
"boom".  The run does not advance to the second replica — the engine
call list stops at the first replica's three calls — and the remediation
failure is surfaced to the caller. -/
theorem restore_remediation_failure_surfaced :
    (restore_command "c1" [exReplica, exReplica2] envAbad false false false
        {}).2 = some "boom" ∧
    (restore_command "c1" [exReplica, exReplica2] envAbad false false false
        {}).1.engineCalls =
      [restoreCall exReplica none, restartCall exReplica none,
       restoreCall exReplica none] :=
  ⟨by decide, by decide⟩

/-- C2 (amended): after a RecoverableA or RecoverableB remediation
sequence all of whose calls succeed, the orchestrator advances to the
next replica; a failure raised during remediation is not re-classified —
it propagates verbatim to the caller and no further replica in the
sequence is processed. -/
theorem restore_remediation_outcome (env env' : Nat → Outcome)
    (cluster cluster' : Option String) (r r' : Replica)
    (rs rs' : List Replica) (s t : ExecState) (msg msg' : String)
    (o o' : Outcome)
    (h0 : env s.idx = Outcome.fail msg)
    (hA : (containsSub msg needleA1 || containsSub msg needleA2) = true)
    (h1 : env (s.idx + 1) = Outcome.ok)
    (h2 : env (s.idx + 2) = o)
    (h0' : env' t.idx = Outcome.fail msg')
    (hA' : (containsSub msg' needleA1 || containsSub msg' needleA2) = false)
    (hB' : containsSub msg' needleB = true)
    (h1' : env' (t.idx + 1) = o') :
    restore_loop env false cluster (r :: rs) s =
      (match o with
       | Outcome.ok =>
         restore_loop env false cluster rs
           { s with
             engineCalls := s.engineCalls ++
               [restoreCall r cluster, restartCall r cluster,
                restoreCall r cluster],
             idx := s.idx + 3 }
       | Outcome.fail m =>
         ({ s with
            engineCalls := s.engineCalls ++
              [restoreCall r cluster, restartCall r cluster,
               restoreCall r cluster],
            idx := s.idx + 3 }, some m)) ∧
    restore_loop env' false cluster' (r' :: rs') t =
      (match o' with
       | Outcome.ok =>
         restore_loop env' false cluster' rs'
           { t with
             engineCalls := t.engineCalls ++
               [restoreCall r' cluster', restartCall r' cluster'],
             idx := t.idx + 2 }
       | Outcome.fail m =>
         ({ t with
            engineCalls := t.engineCalls ++
              [restoreCall r' cluster', restartCall r' cluster'],
            idx := t.idx + 2 }, some m)) := by
  constructor
  · have hone := restore_one_classA_spec env cluster r s msg h0 hA h1
    rw [h2] at hone
    cases o with
    | ok => exact restore_loop_cons_ok env false cluster r rs s _ hone
    | fail m => exact restore_loop_cons_fail env false cluster r rs s _ m hone
  · have hone := restore_one_classB_spec env' cluster' r' t msg' h0' hA' hB'
    rw [h1'] at hone
    cases o' with
    | ok => exact restore_loop_cons_ok env' false cluster' r' rs' t _ hone
    | fail m => exact restore_loop_cons_fail env' false cluster' r' rs' t _ m hone

theorem restore_remediation_outcome_witness :
    restore_loop envAbad false none [exReplica, exReplica2] initState =
      ({ engineCalls := [restoreCall exReplica none,
          restartCall exReplica none, restoreCall exReplica none],
         records := [], idx := 3 }, some "boom") ∧
    restore_loop envBbad false none [exReplica] initState =
      ({ engineCalls := [restoreCall exReplica none,
          restartCall exReplica none],
         records := [], idx := 2 }, some "boom2") :=
  restore_remediation_outcome envAbad envBbad none none exReplica exReplica
    [exReplica2] [] initState initState "NO_ZOOKEEPER"
    "Replica path is present" (Outcome.fail "boom") (Outcome.fail "boom2")
    rfl (by decide) rfl rfl rfl (by decide) (by decide) rfl

/-! ### C3 -/

/-- C3: a restore failure matching neither the RecoverableA needles nor
the RecoverableB needle is re-raised to the caller verbatim and the loop
stops immediately: the engine call list is extended only by that
replica's failed restore, whatever replicas remain in the sequence. -/
theorem restore_unclassified_fail_fast (env : Nat → Outcome)
    (cluster : Option String) (r : Replica) (rs : List Replica)
    (s : ExecState) (msg : String)
    (h0 : env s.idx = Outcome.fail msg)
    (hA : (containsSub msg needleA1 || containsSub msg needleA2) = false)
    (hB : containsSub msg needleB = false) :
    restore_loop env false cluster (r :: rs) s =
      ({ s with
         engineCalls := s.engineCalls ++ [restoreCall r cluster],
         idx := s.idx + 1 }, some msg) :=
  restore_loop_cons_fail env false cluster r rs s _ msg
    (restore_one_unclassified_spec env cluster r s msg h0 hA hB)

theorem restore_unclassified_fail_fast_witness :
    restore_loop envU false none [exReplica, exReplica2] initState =
      ({ engineCalls := [restoreCall exReplica none], records := [],
         idx := 1 }, some "some other error") :=
  restore_unclassified_fail_fast envU none exReplica [exReplica2]
    initState "some other error" rfl (by decide) (by decide)

/-! ### C4 -/

/-- C4: a restore failure whose message contains "Replica path is
present" and matches neither RecoverableA needle is remediated by
exactly one restart call with no further restore attempt, after which
(the restart having succeeded) the run proceeds to the next replica. -/
theorem restore_recoverableB_single_restart (env : Nat → Outcome)
    (cluster : Option String) (r : Replica) (rs : List Replica)
    (s : ExecState) (msg : String)
    (h0 : env s.idx = Outcome.fail msg)
    (hA : (containsSub msg needleA1 || containsSub msg needleA2) = false)
    (hB : containsSub msg needleB = true)
    (h1 : env (s.idx + 1) = Outcome.ok) :
    restore_loop env false cluster (r :: rs) s =
      restore_loop env false cluster rs
        { s with
          engineCalls := s.engineCalls ++
            [restoreCall r cluster, restartCall r cluster],
          idx := s.idx + 2 } := by
  apply restore_loop_cons_ok
  rw [restore_one_classB_spec env cluster r s msg h0 hA hB, h1]

theorem restore_recoverableB_single_restart_witness :
    restore_loop envB false none [exReplica, exReplica2] initState =
      restore_loop envB false none [exReplica2]
        { engineCalls := [restoreCall exReplica none,
            restartCall exReplica none],
          records := [], idx := 2 } :=
  restore_recoverableB_single_restart envB none exReplica [exReplica2]
    initState "Replica path is present" rfl (by decide) (by decide) rfl

/-! ### C5 -/

/-- C5: classification is an ordered, case-sensitive substring search
over the raw error text, with the RecoverableA needles checked first:
for every message that contains a RecoverableA needle as a substring —
even one that also contains the RecoverableB needle — the failure is
classified RecoverableA, whose remediation issues restart and restore
(and not the restart-only RecoverableB remediation). -/
theorem classification_ordered_A_first (env : Nat → Outcome)
    (cluster : Option String) (r : Replica) (s : ExecState) (msg : String)
    (h0 : env s.idx = Outcome.fail msg)
    (hA : needleA1.data <:+: msg.data ∨ needleA2.data <:+: msg.data)
    ( _hB : needleB.data <:+: msg.data)
    (h1 : env (s.idx + 1) = Outcome.ok) :
    restore_one env false cluster r s =
      ({ s with
         engineCalls := s.engineCalls ++
           [restoreCall r cluster, restartCall r cluster,
            restoreCall r cluster],
         idx := s.idx + 3 },
       match env (s.idx + 2) with
       | Outcome.ok => none
       | Outcome.fail m => some m) := by
  apply restore_one_classA_spec env cluster r s msg h0 _ h1
  rw [Bool.or_eq_true, containsSub_iff, containsSub_iff]
  exact hA

theorem classification_ordered_A_first_witness :
    restore_one
      (fun n =>
        if n = 0 then Outcome.fail "Replica path is present NO_ZOOKEEPER"
        else Outcome.ok)
      false none exReplica initState =
      ({ engineCalls := [restoreCall exReplica none,
          restartCall exReplica none, restoreCall exReplica none],
         records := [], idx := 3 }, none) :=
  classification_ordered_A_first
    (fun n =>
      if n = 0 then Outcome.fail "Replica path is present NO_ZOOKEEPER"
      else Outcome.ok)
    none exReplica initState "Replica path is present NO_ZOOKEEPER" rfl
    (Or.inr (by decide)) (by decide) rfl

/-! ### Provenance of engine calls in the restore loop -/

theorem restore_one_dry_spec (env : Nat → Outcome) (cluster : Option String)
    (r : Replica) (s : ExecState) :
    restore_one env true cluster r s =
      ({ s with records := s.records ++ [restoreCall r cluster] }, none) := by
  simp [restore_one, doCall]

theorem restore_one_engineCalls_shape (env : Nat → Outcome) (dryRun : Bool)
    (cluster : Option String) (r : Replica) (s : ExecState) :
    ∃ l, (restore_one env dryRun cluster r s).1.engineCalls =
        s.engineCalls ++ l ∧
      ∀ c ∈ l, c = restoreCall r cluster ∨ c = restartCall r cluster := by
  cases dryRun with
  | true =>
    refine ⟨[], ?_, by simp⟩
    rw [restore_one_dry_spec]
    simp
  | false =>
    cases h0 : env s.idx with
    | ok =>
      refine ⟨[restoreCall r cluster], ?_, by simp⟩
      rw [restore_one_ok_spec env cluster r s h0]
    | fail msg =>
      by_cases hA : (containsSub msg needleA1 || containsSub msg needleA2) = true
      · cases h1 : env (s.idx + 1) with
        | ok =>
          refine ⟨[restoreCall r cluster, restartCall r cluster,
            restoreCall r cluster], ?_, ?_⟩
          · rw [restore_one_classA_spec env cluster r s msg h0 hA h1]
          · intro c hc
            simp only [List.mem_cons, List.not_mem_nil, or_false] at hc
            rcases hc with rfl | rfl | rfl
            · exact Or.inl rfl
            · exact Or.inr rfl
            · exact Or.inl rfl
        | fail m2 =>
          refine ⟨[restoreCall r cluster, restartCall r cluster], ?_, ?_⟩
          · rw [restore_one_classA_restart_fail_spec env cluster r s msg m2
              h0 hA h1]
          · intro c hc
            simp only [List.mem_cons, List.not_mem_nil, or_false] at hc
            rcases hc with rfl | rfl
            · exact Or.inl rfl
            · exact Or.inr rfl
      · have hA' : (containsSub msg needleA1 || containsSub msg needleA2) =
            false := by
          simpa using hA
        by_cases hB : containsSub msg needleB = true
        · refine ⟨[restoreCall r cluster, restartCall r cluster], ?_, ?_⟩
          · rw [restore_one_classB_spec env cluster r s msg h0 hA' hB]
          · intro c hc
            simp only [List.mem_cons, List.not_mem_nil, or_false] at hc
            rcases hc with rfl | rfl
            · exact Or.inl rfl
            · exact Or.inr rfl
        · have hB' : containsSub msg needleB = false := by simpa using hB
          refine ⟨[restoreCall r cluster], ?_, by simp⟩
          rw [restore_one_unclassified_spec env cluster r s msg h0 hA' hB']

theorem restore_loop_calls_subset (env : Nat → Outcome) (dryRun : Bool)
    (cluster : Option String) : ∀ (l : List Replica) (s : ExecState),
    ∀ c ∈ (restore_loop env dryRun cluster l s).1.engineCalls,
      c ∈ s.engineCalls ∨ ∃ r, r ∈ l ∧
        (c = restoreCall r cluster ∨ c = restartCall r cluster) := by
  intro l
  induction l with
  | nil => intro s c hc; exact Or.inl hc
  | cons r rs ih =>
    intro s c hc
    obtain ⟨L, hL, hLmem⟩ := restore_one_engineCalls_shape env dryRun cluster r s
    rcases hres : restore_one env dryRun cluster r s with ⟨s1, o⟩
    have hL1 : s1.engineCalls = s.engineCalls ++ L := by
      rw [hres] at hL
      exact hL
    cases o with
    | none =>
      rw [restore_loop_cons_ok env dryRun cluster r rs s s1 hres] at hc
      rcases ih s1 c hc with h | ⟨r', hr', hcr⟩
      · rw [hL1] at h
        rcases List.mem_append.1 h with h' | h'
        · exact Or.inl h'
        · exact Or.inr ⟨r, List.mem_cons_self r rs, hLmem c h'⟩
      · exact Or.inr ⟨r', List.mem_cons_of_mem r hr', hcr⟩
    | some m =>
      rw [restore_loop_cons_fail env dryRun cluster r rs s s1 m hres] at hc
      have hc1 : c ∈ s1.engineCalls := hc
      rw [hL1] at hc1
      rcases List.mem_append.1 hc1 with h' | h'
      · exact Or.inl h'
      · exact Or.inr ⟨r, List.mem_cons_self r rs, hLmem c h'⟩

/-! ### C6 -/

/-- C6: the restore flow's candidate set is exactly the read-only subset
of the replicas matching the selection patterns, and every call the run
sends to the engine targets the identity of a read-only replica of the
catalog — no restore is attempted on a replica not selected as
read-only. -/
theorem restore_candidates_readonly (clusterName : String)
    (catalog : List Replica) (env : Nat → Outcome) ( _all : Bool)
    (onCluster dryRun : Bool) (flags : SelectionFlags) :
    list_table_replicas catalog (restoreParams flags) =
      (catalog.filter fun r => patternMatches (restoreParams flags) r).filter
        (fun r => r.is_readonly) ∧
    ((restore_command clusterName catalog env _all onCluster dryRun
        flags).1.engineCalls.all fun c =>
      (list_table_replicas catalog (restoreParams flags)).any fun r =>
        r.is_readonly && (c.database == r.database) &&
          (c.table == r.table)) = true := by
  constructor
  · rw [list_table_replicas]
    simp only [List.filter_filter]
    apply List.filter_congr
    intro r hr
    simp [selects, restoreParams, Bool.and_comm]
  · rw [List.all_eq_true]
    intro c hc
    simp only [restore_command] at hc
    rcases restore_loop_calls_subset env dryRun
        (if onCluster then some clusterName else none)
        (list_table_replicas catalog (restoreParams flags)) initState c hc with
      h | ⟨r, hr, hcr⟩
    · exact absurd h (List.not_mem_nil c)
    · have hro : r.is_readonly = true := by
        rw [list_table_replicas] at hr
        simp only [restoreParams] at hr
        rw [List.mem_filter] at hr
        obtain ⟨-, hrsel⟩ := hr
        rw [selects, Bool.and_eq_true] at hrsel
        obtain ⟨-, hro⟩ := hrsel
        simpa using hro
      rw [List.any_eq_true]
      refine ⟨r, hr, ?_⟩
      rcases hcr with rfl | rfl <;>
        simp [restoreCall, restartCall, hro]

/-! ### C7 -/

theorem restore_loop_dry_spec (env : Nat → Outcome)
    (cluster : Option String) : ∀ (l : List Replica) (s : ExecState),
    restore_loop env true cluster l s =
      ({ s with
         records := s.records ++ l.map fun r => restoreCall r cluster },
       none) := by
  intro l
  induction l with
  | nil => intro s; simp [restore_loop]
  | cons r rs ih =>
    intro s
    rw [restore_loop_cons_ok env true cluster r rs s _
      (restore_one_dry_spec env cluster r s), ih]
    simp [List.append_assoc]

theorem restart_loop_dry_spec (env : Nat → Outcome)
    (cluster : Option String) : ∀ (l : List Replica) (s : ExecState),
    restart_loop env true cluster l s =
      ({ s with
         records := s.records ++ l.map fun r => restartCall r cluster },
       none) := by
  intro l
  induction l with
  | nil => intro s; simp [restart_loop]
  | cons r rs ih =>
    intro s
    simp [restart_loop, doCall, ih, List.append_assoc]

/-- C7: with the dry-run flag set, a command invocation contacts the
remote engine zero times — its result does not depend on the engine at
all and the engine-call list is empty —, records exactly one
intended-action entry per selected replica carrying the replica
identity, the operation and the cluster annotation, finishes with a
synthetic success (no propagated failure), and the catalog read is not
gated: the records enumerate the full selected sequence. -/
theorem dry_run_gate_spec (clusterName : String) (catalog : List Replica)
    (env env' : Nat → Outcome) ( _all : Bool) (onCluster : Bool)
    (flags : SelectionFlags) :
    restore_command clusterName catalog env _all onCluster true flags =
      restore_command clusterName catalog env' _all onCluster true flags ∧
    restore_command clusterName catalog env _all onCluster true flags =
      ({ engineCalls := [],
         records := (list_table_replicas catalog (restoreParams flags)).map
           fun r =>
             restoreCall r (if onCluster then some clusterName else none),
         idx := 0 }, none) ∧
    restart_replica_command clusterName catalog env _all onCluster true
        flags =
      ({ engineCalls := [],
         records :=
           (list_table_replicas catalog (restartParams _all flags)).map
             fun r =>
               restartCall r (if onCluster then some clusterName else none),
         idx := 0 }, none) := by
  refine ⟨?_, ?_, ?_⟩
  · simp only [restore_command]
    rw [restore_loop_dry_spec, restore_loop_dry_spec]
  · simp only [restore_command]
    rw [restore_loop_dry_spec]
    rfl
  · simp only [restart_replica_command]
    rw [restart_loop_dry_spec]
    rfl

/-! ### C8 -/

/-- The restart-only flow as the spec words it: one restart per selected
replica, in sequence order; the first failing restart stops the run
immediately and its raw message is returned unexamined, with no
classification. -/
def restartSpecRun (env : Nat → Outcome) (cluster : Option String) :
    List Replica → Nat → List Call × Option String
  | [], _ => ([], none)
  | r :: rs, i =>
    match env i with
    | Outcome.ok =>
      let p := restartSpecRun env cluster rs (i + 1)
      (restartCall r cluster :: p.1, p.2)
    | Outcome.fail m => ([restartCall r cluster], some m)

theorem restart_loop_spec (env : Nat → Outcome) (cluster : Option String) :
    ∀ (l : List Replica) (s : ExecState),
    restart_loop env false cluster l s =
      ({ s with
         engineCalls := s.engineCalls ++
           (restartSpecRun env cluster l s.idx).1,
         idx := s.idx + (restartSpecRun env cluster l s.idx).1.length },
       (restartSpecRun env cluster l s.idx).2) := by
  intro l
  induction l with
  | nil => intro s; simp [restart_loop, restartSpecRun]
  | cons r rs ih =>
    intro s
    cases h : env s.idx with
    | ok =>
      simp [restart_loop, doCall, h, ih, restartSpecRun, List.append_assoc,
        Nat.add_assoc, Nat.add_comm, Nat.add_left_comm]
    | fail m =>
      simp [restart_loop, doCall, h, restartSpecRun]

/-- Replace a replica's read-only bit. -/
def setRO (b : Bool) (r : Replica) : Replica := { r with is_readonly := b }

theorem restart_selection_ignores_readonly (catalog : List Replica)
    ( _all : Bool) (flags : SelectionFlags) (b : Bool) :
    list_table_replicas (catalog.map (setRO b)) (restartParams _all flags) =
      (list_table_replicas catalog (restartParams _all flags)).map
        (setRO b) := by
  rw [list_table_replicas, list_table_replicas]
  rw [List.filter_map]
  congr 1

/-- C8: the restart-only command applies no read-only filter — its
selection commutes with arbitrarily rewriting every replica's read-only
bit — and its execution is exactly the spec-level sequence: one restart
call per selected replica in order, with the first restart failure
returned raw (never classified) and every later replica left
unprocessed. -/
theorem restart_command_fail_fast (clusterName : String)
    (catalog : List Replica) (env : Nat → Outcome) ( _all : Bool)
    (onCluster : Bool) (flags : SelectionFlags) (b : Bool) :
    (restart_replica_command clusterName catalog env _all onCluster false
        flags).1.engineCalls =
      (restartSpecRun env (if onCluster then some clusterName else none)
        (list_table_replicas catalog (restartParams _all flags)) 0).1 ∧
    (restart_replica_command clusterName catalog env _all onCluster false
        flags).2 =
      (restartSpecRun env (if onCluster then some clusterName else none)
        (list_table_replicas catalog (restartParams _all flags)) 0).2 ∧
    list_table_replicas (catalog.map (setRO b)) (restartParams _all flags) =
      (list_table_replicas catalog (restartParams _all flags)).map
        (setRO b) := by
  refine ⟨?_, ?_, restart_selection_ignores_readonly catalog _all flags b⟩ <;>
    simp only [restart_replica_command] <;>
    rw [restart_loop_spec] <;>
    try simp [initState]

/-! ### C9 -/

/-- C9: for every pattern `p` and candidate `v` — if `p` contains a
comma, `matchOne` holds iff the trimmed `v` is an exact member of the
comma-split, whitespace-trimmed elements of `p`; if `p` contains no
comma, `matchOne` holds iff `p` matches `v` under SQL-LIKE semantics,
where `%` matches any sequence and `_` matches exactly one character. -/
theorem matchOne_spec (v p : String) :
    matchOne v p = true ↔
      (if p.data.contains ',' = true then
        v.trim ∈ (p.split fun c => c == ',').map String.trim
       else LikeSem p.data v.data) := by
  rw [matchOne]
  by_cases h : p.data.contains ',' = true
  · rw [if_pos h, if_pos h]
    exact List.elem_iff
  · rw [if_neg h, if_neg h]
    exact likeMatch_iff_likeSem p.data v.data

/-! ### C10 -/

/-- A writable replica in database `db1` used for the `--all` contrast. -/
def exReplicaW : Replica := ⟨"db1", "t1", "/tables/db1/t1", "r", false, 0,
  0, 1, 1⟩

/-- Engine that answers success to every call. -/
def envOk : Nat → Outcome := fun _ => Outcome.ok

/-- Selection flags whose database pattern matches nothing in the
`--all` contrast scenario. -/
def exFlagsOther : SelectionFlags := { database_pattern := some "other" }

/-- C10: the `--all` flag is bound by the restore command's signature
but never forwarded to the catalog read, so restore with the flag set
selects and processes exactly what it does with the flag clear, for
every combination of the other inputs; the restart command, by
contrast, forwards the flag, and there is a concrete catalog and flag
combination on which it changes the restart run. -/
theorem all_flag_ignored_by_restore (clusterName : String)
    (catalog : List Replica) (env : Nat → Outcome)
    (onCluster dryRun : Bool) (flags : SelectionFlags) :
    restore_command clusterName catalog env true onCluster dryRun flags =
      restore_command clusterName catalog env false onCluster dryRun
        flags ∧
    restart_replica_command "c" [exReplicaW] envOk true false false
        exFlagsOther ≠
      restart_replica_command "c" [exReplicaW] envOk false false false
        exFlagsOther :=
  ⟨rfl, by decide⟩

end ChTools
